import Mathlib

/-!
Shallow embedding of the customer-analysis engine of `gt-dashboard-builder`
(`src/App.tsx`, function `performCustomerAnalysis` and its local helpers).

Conventions of the embedding:
* JavaScript strings are Lean `String`s; a cell read that can yield
  `undefined` is collapsed to the empty string, which is observationally
  equivalent in every use the engine makes of it (all `===` comparisons
  against non-empty literals and all `||` fallbacks treat `undefined` and
  `""` alike).
* JavaScript numbers that can be `NaN` are modelled as `Option Frac`
  (`Frac` is an exact rational type), with `none` playing the role of
  `NaN`; every relational comparison involving `none` evaluates to `false`,
  exactly as NaN comparisons do.
* Dates are modelled at day granularity as a day count from the Unix epoch
  (the engine only ever constructs local-midnight dates and compares them,
  so the time-of-day component is irrelevant).
-/

/-- Decimal digit value of a character. -/
def digitVal (c : Char) : Nat := c.toNat - 48

/-- Decimal value of a digit string (used for the regex captures, which the
source feeds to `parseInt`). -/
def digitsToNat (cs : List Char) : Nat := cs.foldl (fun acc c => acc * 10 + digitVal c) 0

/-- Whether `needle` starts `hay`. -/
def leadsWith : List Char → List Char → Bool
  | [], _ => true
  | _ :: _, [] => false
  | a :: as, b :: bs => a == b && leadsWith as bs

/-- Whether `needle` occurs somewhere in `hay`; model of
`String.prototype.includes`. -/
def hasSubList (needle : List Char) : List Char → Bool
  | [] => needle.isEmpty
  | b :: bs => leadsWith needle (b :: bs) || hasSubList needle bs

/-- `hay.includes(needle)` on strings. -/
def strContains (hay needle : String) : Bool := hasSubList needle.toList hay.toList

/-- JavaScript `a || b` on strings: the empty string (or an absent value,
which this embedding collapses to the empty string) is falsy. -/
def jsOrStr (a b : String) : String := if a = "" then b else a

/-- Whitespace class of `String.prototype.trim` (the variants occurring in
spreadsheet cells). -/
def isWsChar (c : Char) : Bool := c == ' ' || c == '\t' || c == '\n' || c == '\r'

/-- `s.trim()`: strip leading and trailing whitespace. -/
def strTrim (s : String) : String :=
  ⟨(((s.toList.dropWhile isWsChar).reverse).dropWhile isWsChar).reverse⟩

/-- `s.toUpperCase()` (ASCII letters; other characters are unchanged, as in
the host for the header labels occurring here). -/
def strUpper (s : String) : String := ⟨s.toList.map Char.toUpper⟩

/-- Decimal digits of a natural number, most significant first; the fuel
`n + 1` bounds the recursion depth. -/
def natToDigitsFuel : Nat → Nat → List Char
  | 0, _ => []
  | f + 1, n =>
    if n < 10 then [Char.ofNat (48 + n)]
    else natToDigitsFuel f (n / 10) ++ [Char.ofNat (48 + n % 10)]

/-- Decimal rendering of a natural number. -/
def natToStr (n : Nat) : String := ⟨natToDigitsFuel (n + 1) n⟩

/-- Decimal rendering of an integer, the template-literal conversion of
`` `${y}年${m}月` ``. -/
def intToStr (i : Int) : String := if i < 0 then "-" ++ natToStr i.natAbs else natToStr i.natAbs

/-- The character filter of `parseAmount` / `parseNumber`: keep decimal
digits and the decimal point (`replace(/[^0-9.]/g, '')`). -/
def cleanNumeric (s : String) : List Char := s.toList.filter (fun c => c.isDigit || c == '.')

/-- Euclid's algorithm with explicit fuel, so that the kernel can evaluate
it on closed inputs. -/
def gcdFuel : Nat → Nat → Nat → Nat
  | 0, _, n => n
  | f + 1, m, n => if m = 0 then n else gcdFuel f (n % m) m

/-- Greatest common divisor; the fuel `m + 1` bounds the recursion depth of
Euclid's algorithm. -/
def natGcdF (m n : Nat) : Nat := gcdFuel (m + 1) m n

/-- Exact rational numbers in normalized form (positive denominator,
coprime numerator), modelling the finite JavaScript numbers this engine
computes with.  A separate `Option Frac` models a possibly-NaN number. -/
structure Frac where
  num : Int
  den : Int
deriving DecidableEq

/-- Normalizing constructor: sign on the numerator, gcd divided out. -/
def mkFrac (n d : Int) : Frac :=
  if d = 0 then ⟨0, 1⟩
  else
    let s : Int := if d < 0 then -1 else 1
    let n1 := s * n
    let d1 := s * d
    let g : Int := (natGcdF n1.natAbs d1.natAbs : Nat)
    if g = 0 then ⟨0, 1⟩ else ⟨Int.ediv n1 g, Int.ediv d1 g⟩

instance (n : Nat) : OfNat Frac n := ⟨⟨n, 1⟩⟩

/-- Embed a natural counter into the numeric domain. -/
def fracOfNat (n : Nat) : Frac := ⟨n, 1⟩

/-- Addition. -/
def Frac.add (a b : Frac) : Frac := mkFrac (a.num * b.den + b.num * a.den) (a.den * b.den)

/-- Multiplication. -/
def Frac.mul (a b : Frac) : Frac := mkFrac (a.num * b.num) (a.den * b.den)

/-- Division (never reached with a zero divisor by this engine: every
division is guarded by a positivity test on the denominator). -/
def Frac.div (a b : Frac) : Frac := mkFrac (a.num * b.den) (a.den * b.num)

/-- Strict order, by cross multiplication (exact on the positive
denominators the normalized form guarantees). -/
def Frac.lt (a b : Frac) : Bool := a.num * b.den < b.num * a.den

/-- `parseFloat` applied to a string containing only digits and dots: an
optional integer part, an optional single fractional part; a string with no
digit before the parse stops is NaN (`none`). -/
def parseFloatDigits (cs : List Char) : Option Frac :=
  let intPart := cs.takeWhile Char.isDigit
  let rest := cs.dropWhile Char.isDigit
  match rest with
  | '.' :: rest2 =>
    let fracPart := rest2.takeWhile Char.isDigit
    if intPart.isEmpty && fracPart.isEmpty then none
    else some ((fracOfNat (digitsToNat intPart)).add
      (mkFrac (digitsToNat fracPart) ((10 : Nat) ^ fracPart.length)))
  | _ => if intPart.isEmpty then none else some (fracOfNat (digitsToNat intPart))

/-- `parseAmount` from the source: `NaN` for an empty/absent value, else
strip every character that is not a digit or a dot and `parseFloat` the
remainder.  `parseNumber` in the source has the identical body, so this
single definition embeds both. -/
def parseAmount (s : String) : Option Frac :=
  if s = "" then none else parseFloatDigits (cleanNumeric s)

/-- Comparison `v > t` where `v` may be NaN (`none`): NaN comparisons are
false, never an error. -/
def optGtF (v : Option Frac) (t : Frac) : Bool :=
  match v with
  | none => false
  | some x => t.lt x

/-- Separator class (slash or dash) of the structural date regexes. -/
def isSepChar (c : Char) : Bool := c == '/' || c == '-'

/-- Match `\d{4}` at the head of the input, returning its value and the
rest. -/
def take4Digits : List Char → Option (Nat × List Char)
  | a :: b :: c :: d :: rest =>
    if a.isDigit && b.isDigit && c.isDigit && d.isDigit then
      some ((((digitVal a * 10 + digitVal b) * 10 + digitVal c) * 10 + digitVal d), rest)
    else none
  | _ => none

/-- Match `\d{1,2}` greedily at the head of the input with regex
backtracking: try two digits first and fall back to one if the
continuation fails. -/
def matchD12 (cs : List Char) (k : Nat → List Char → Option (Nat × Nat × Nat)) :
    Option (Nat × Nat × Nat) :=
  match cs with
  | a :: b :: rest =>
    if a.isDigit then
      if b.isDigit then
        (k (digitVal a * 10 + digitVal b) rest) <|> k (digitVal a) (b :: rest)
      else k (digitVal a) (b :: rest)
    else none
  | [a] => if a.isDigit then k (digitVal a) [] else none
  | [] => none

/-- Anchored match of `(\d{4}) sep (\d{1,2}) sep (\d{1,2})` (first structural
date pattern), returning the three captures. -/
def ymdAt (cs : List Char) : Option (Nat × Nat × Nat) :=
  match take4Digits cs with
  | none => none
  | some (y, r1) =>
    match r1 with
    | s :: r2 =>
      if isSepChar s then
        matchD12 r2 (fun m r3 =>
          match r3 with
          | s2 :: r4 => if isSepChar s2 then matchD12 r4 (fun d _ => some (y, m, d)) else none
          | [] => none)
      else none
    | [] => none

/-- Anchored match of `(\d{1,2}) sep (\d{1,2}) sep (\d{4})` (second
structural date pattern). -/
def mdyAt (cs : List Char) : Option (Nat × Nat × Nat) :=
  matchD12 cs (fun m r1 =>
    match r1 with
    | s :: r2 =>
      if isSepChar s then
        matchD12 r2 (fun d r3 =>
          match r3 with
          | s2 :: r4 =>
            if isSepChar s2 then
              match take4Digits r4 with
              | some (y, _) => some (m, d, y)
              | none => none
            else none
          | [] => none)
      else none
    | [] => none)

/-- Anchored match of the localized pattern `(\d{4})年(\d{1,2})月(\d{1,2})日?`
(third structural date pattern; the optional `日` does not affect the
captures). -/
def cjkAt (cs : List Char) : Option (Nat × Nat × Nat) :=
  match take4Digits cs with
  | none => none
  | some (y, r1) =>
    match r1 with
    | s :: r2 =>
      if s == '年' then
        matchD12 r2 (fun m r3 =>
          match r3 with
          | s2 :: r4 => if s2 == '月' then matchD12 r4 (fun d _ => some (y, m, d)) else none
          | [] => none)
      else none
    | [] => none

/-- Unanchored regex search: try the anchored matcher at every start
position, left to right, as `String.prototype.match` does. -/
def searchPat (f : List Char → Option (Nat × Nat × Nat)) : List Char → Option (Nat × Nat × Nat)
  | [] => none
  | a :: rest => (f (a :: rest)) <|> searchPat f rest

/-- Year adjustment of the ``if 2 < m then y else y - 1`` step of the
civil-from-days algorithm. -/
def civilY (y m : Int) : Int := if 2 < m then y else y - 1

/-- Shifted month of the civil-from-days algorithm (March-based year). -/
def civilMP (m : Int) : Int := if 2 < m then m - 3 else m + 9

/-- Day count from the Unix epoch of the civil date `(y, m, d)` with
`1 ≤ m ≤ 12` and an arbitrary integer day `d` (a `d` outside the month
rolls over, exactly like the JavaScript `Date` components). -/
def daysFromCivil (y m d : Int) : Int :=
  Int.fdiv (civilY y m) 400 * 146097
    + (civilY y m - Int.fdiv (civilY y m) 400 * 400) * 365
    + Int.fdiv (civilY y m - Int.fdiv (civilY y m) 400 * 400) 4
    - Int.fdiv (civilY y m - Int.fdiv (civilY y m) 400 * 400) 100
    + Int.fdiv (153 * civilMP m + 2) 5 + d - 1 - 719468

/-- Day count of `new Date(y, m0, d)` (zero-based month `m0`, both month
and day may overflow and roll over; a year in `0..99` is offset by 1900 as
the `Date` constructor specifies). -/
def ctorDay (y m0 d : Int) : Int :=
  daysFromCivil ((if 0 ≤ y ∧ y ≤ 99 then y + 1900 else y) + Int.fdiv m0 12)
    (Int.emod m0 12 + 1) d

/-- Gregorian leap-year test. -/
def isLeapYear (y : Int) : Bool :=
  (Int.emod y 4 == 0 && Int.emod y 100 != 0) || Int.emod y 400 == 0

/-- Number of days of month `m` (1-based) of year `y`. -/
def daysInMonth (y m : Int) : Int :=
  if m = 2 then (if isLeapYear y then 29 else 28)
  else if m = 4 ∨ m = 6 ∨ m = 9 ∨ m = 11 then 30 else 31

/-- Split a character list on `/` and `-` separators. -/
def splitSeps (cs : List Char) : List (List Char) :=
  cs.foldr
    (fun c acc =>
      match acc with
      | [] => [[c]]
      | g :: gs => if isSepChar c then [] :: (g :: gs) else (c :: g) :: gs)
    [[]]

/-- Day-granularity model of the host JavaScript `new Date(string)` generic
parser for the date-only strings this engine feeds it: a string consisting
of three nonempty decimal fields separated by `/` or `-`, read as
year/month/day when the first field has four digits and as the US
month/day/year order when the last one has, and required to name a valid
calendar date.  Anything else — in particular the localized
`YYYY年MM月DD日` form, which the host rejects as `Invalid Date` — is
`none`. -/
def genericDate (s : String) : Option (Int × Int × Int) :=
  let cs := s.toList
  if cs.isEmpty then none
  else if !(cs.all (fun c => c.isDigit || isSepChar c)) then none
  else
    match splitSeps cs with
    | [a, b, c] =>
      if (a.all Char.isDigit && b.all Char.isDigit && c.all Char.isDigit)
          && (!a.isEmpty && !b.isEmpty && !c.isEmpty) then
        if a.length = 4 then
          let y : Int := digitsToNat a
          let m : Int := digitsToNat b
          let d : Int := digitsToNat c
          if 1 ≤ m ∧ m ≤ 12 ∧ 1 ≤ d ∧ d ≤ daysInMonth y m then some (y, m, d) else none
        else if c.length = 4 then
          let y : Int := digitsToNat c
          let m : Int := digitsToNat a
          let d : Int := digitsToNat b
          if 1 ≤ m ∧ m ≤ 12 ∧ 1 ≤ d ∧ d ≤ daysInMonth y m then some (y, m, d) else none
        else none
      else none
    | _ => none

/-- The anchor-date parse of the filtering loop: the three structural
regexes tried in order (each feeding `new Date(year, month - 1, day)`),
then the generic `new Date(string)` fallback; `none` models the
`isNaN(date.getTime())` rejection. -/
def parseAnchorDay (s : String) : Option Int :=
  match searchPat ymdAt s.toList with
  | some (y, m, d) => some (ctorDay y ((m : Int) - 1) d)
  | none =>
    match searchPat mdyAt s.toList with
    | some (m, d, y) => some (ctorDay y ((m : Int) - 1) d)
    | none =>
      match searchPat cjkAt s.toList with
      | some (y, m, d) => some (ctorDay y ((m : Int) - 1) d)
      | none => (genericDate s).map (fun v => daysFromCivil v.1 v.2.1 v.2.2)

/-- A materialized data row: the header labels paired, in header order, with
the row's cells (`values[i][index] || ''`); the JavaScript object the source
builds from it is recovered through `objGet` / `objKeys`. -/
def Obj : Type := List (String × String)

instance : DecidableEq Obj := by unfold Obj; infer_instance

/-- Property read `customer[k]` on the row object: the value of the last
header occurrence named `k` (later duplicate headers overwrite earlier
ones), or the empty string for an absent key (standing for `undefined`,
observationally equivalent in every use the engine makes of it). -/
def objGet (c : Obj) (k : String) : String :=
  match (c.filter (fun p => p.1 == k)).getLast? with
  | none => ""
  | some p => p.2

/-- `Object.keys(customer)`: the header labels in insertion order, each
listed once at its first position. -/
def objKeys (c : Obj) : List String :=
  (c.map Prod.fst).foldl (fun acc a => if acc.contains a then acc else acc ++ [a]) []

/-- `getEarPTA`: find the first key containing `<ear>耳` whose uppercased
form contains `PTA`, and parse its value with `parseNumber`; `NaN` when no
such column exists. -/
def getEarPTA (c : Obj) (earLabel : String) : Option Frac :=
  match (objKeys c).find? (fun k =>
      strContains k (earLabel ++ "耳") && strContains (strUpper k) "PTA") with
  | none => none
  | some k => parseAmount (objGet c k)

/-- The converted test of the per-salesperson pass (`isDealt`, source lines
408-412); the hearing-screening pass re-states the identical condition
(`isDealtHS`, lines 686-689), see `isDealtHS`. -/
def isDealtSales (c : Obj) : Bool :=
  objGet c "是否成交" == "是" || objGet c "是否成交" == "TRUE" ||
  objGet c "是否借機" == "TRUE" || objGet c "是否有借機" == "TRUE" ||
  objGet c "是否借機" == "是" ||
  objGet c "成交" == "是" || objGet c "成交" == "TRUE" ||
  objGet c "狀態" == "成交" || objGet c "狀態" == "已成交"

/-- The converted test used by the clinic pass for both its potential and
its dealt counters (`isDealtClinic`/`isDealt`, source lines 595-604), and
by the monthly pass for its potential counter only (lines 516-518): it
omits the `是否有借機` synonym and the `是否借機 === '是'` disjunct. -/
def isDealtClinic (c : Obj) : Bool :=
  objGet c "是否成交" == "是" || objGet c "是否成交" == "TRUE" ||
  objGet c "是否借機" == "TRUE" || objGet c "成交" == "是" ||
  objGet c "成交" == "TRUE" || objGet c "狀態" == "成交" || objGet c "狀態" == "已成交"

/-- The converted test of the monthly pass's `completedDeals` counter
(`isDealt`, source lines 522-524: the source repeats the
`是否借機 === 'TRUE'` disjunct, which is dropped here as a no-op): it never
consults the `成交` or `狀態` columns. -/
def isDealtMonthly (c : Obj) : Bool :=
  objGet c "是否成交" == "是" || objGet c "是否成交" == "TRUE" ||
  objGet c "是否借機" == "TRUE" || objGet c "是否有借機" == "TRUE" ||
  objGet c "是否借機" == "是"

/-- The converted test of the store pass (`isDealtStore`, source lines
653-655). -/
def isDealtStore (c : Obj) : Bool :=
  objGet c "是否成交" == "是" || objGet c "是否成交" == "TRUE" ||
  objGet c "是否借機" == "TRUE" || objGet c "成交" == "是" ||
  objGet c "成交" == "TRUE" || objGet c "狀態" == "成交" || objGet c "狀態" == "已成交"

/-- The converted test of the hearing-screening pass (`isDealtHS`, source
lines 686-689). -/
def isDealtHS (c : Obj) : Bool :=
  objGet c "是否成交" == "是" || objGet c "是否成交" == "TRUE" ||
  objGet c "是否借機" == "TRUE" || objGet c "是否有借機" == "TRUE" ||
  objGet c "是否借機" == "是" || objGet c "成交" == "是" || objGet c "成交" == "TRUE" ||
  objGet c "狀態" == "成交" || objGet c "狀態" == "已成交"

/-- `isPotentialCustomer` of the salesperson pass (source line 415): either
ear's PTA above the threshold, or already converted. -/
def isPotentialSales (t : Frac) (c : Obj) : Bool :=
  optGtF (getEarPTA c "左") t || optGtF (getEarPTA c "右") t || isDealtSales c

/-- `customer['主聽力師'] || customer['聽力師'] || '未知業務員'`. -/
def salesmanOf (c : Obj) : String :=
  jsOrStr (objGet c "主聽力師") (jsOrStr (objGet c "聽力師") "未知業務員")

/-- `customer['成交金額'] || customer['金額'] || customer['價格'] ||
customer['營業額'] || ''`. -/
def rawAmountOf (c : Obj) : String :=
  jsOrStr (objGet c "成交金額")
    (jsOrStr (objGet c "金額") (jsOrStr (objGet c "價格") (jsOrStr (objGet c "營業額") "")))

/-- Amount a customer adds to monetary totals of the salesperson pass:
the parsed deal amount when the row is converted and the amount is a valid
number greater than zero, else nothing. -/
def dealContribution (c : Obj) : Frac :=
  match parseAmount (rawAmountOf c) with
  | none => 0
  | some amt => if isDealtSales c && Frac.lt 0 amt then amt else 0

/-- `customer['服務日期'] || customer['初次到店'] || ''`, the secondary
service date driving the monthly and hearing-screening keys. -/
def serviceDateOf (c : Obj) : String :=
  jsOrStr (objGet c "服務日期") (jsOrStr (objGet c "初次到店") "")

/-- Month key `` `${y}年${m}月` `` of the monthly and hearing passes. -/
def monthKeyOf (y m : Int) : String := intToStr y ++ "年" ++ intToStr m ++ "月"

/-- The month number the sort comparators recover from a month key with
`parseInt(month.replace(..., '$1'))`: the digit run following `年`. -/
def extractMonthNum (s : String) : Nat :=
  digitsToNat (((s.toList.dropWhile (fun c => !(c == '年'))).drop 1).takeWhile Char.isDigit)

/-- Stable insertion of `x` after every already-placed element `y` with
`le y x`; folding it over a list yields exactly the stable ascending sort
that `Array.prototype.sort` produces for a consistent comparator. -/
def insertLe {α : Type} (le : α → α → Bool) (x : α) : List α → List α
  | [] => [x]
  | y :: ys => if le y x then y :: insertLe le x ys else x :: y :: ys

/-- Stable sort by a boolean `le`, the model of `Array.prototype.sort`. -/
def stableSortBy {α : Type} (le : α → α → Bool) (l : List α) : List α :=
  l.foldl (fun acc x => insertLe le x acc) []

/-- Per-salesperson accumulator (`salesmenAnalysis[salesman]`), fields in
source order. -/
structure SalesBucket where
  «業務員» : String
  «訂單數量» : Nat
  «潛力客戶數» : Nat
  «成交率» : Frac
  «當季業績累積» : Frac
deriving DecidableEq

/-- Monthly accumulator (`customerMonthlyData[monthKey]`), fields in source
order. -/
structure MonthBucket where
  month : String
  year : Int
  newCustomers : Nat
  completedDeals : Nat
  conversionRate : Frac
  totalAmount : Frac
  averageAmount : Frac
deriving DecidableEq

/-- Clinic accumulator (`clinicSummary[clinicName]`). -/
structure ClinicBucket where
  clinic : String
  total : Nat
  potential : Nat
  dealt : Nat
  conversionRate : Frac
  totalAmount : Frac
deriving DecidableEq

/-- Store accumulator (`storeSummary[storeNameRaw]`). -/
structure StoreBucket where
  store : String
  total : Nat
  potential : Nat
deriving DecidableEq

/-- Hearing-screening-by-month accumulator (`hearingSummary[monthKey]`). -/
structure HearingBucket where
  month : String
  year : Int
  total : Nat
  potential : Nat
  dealt : Nat
  conversionRate : Frac
  totalAmount : Frac
deriving DecidableEq

/-- The salesperson keys in first-seen order (the init loop of lines
387-399 creates one zeroed bucket per distinct salesman, in encounter
order). -/
def salesKeysOf (customers : List Obj) : List String :=
  (customers.map salesmanOf).foldl (fun acc a => if acc.contains a then acc else acc ++ [a]) []

/-- Zeroed per-salesperson buckets created by the init loop. -/
def initSales (customers : List Obj) : List SalesBucket :=
  (salesKeysOf customers).map (fun s => ⟨s, 0, 0, 0, 0⟩)

/-- One step of the counting loop (lines 402-428): the customer's salesman
bucket gains one potential count when the row is potential and one order
count when it is converted. -/
def bumpSalesman (t : Frac) (buckets : List SalesBucket) (c : Obj) : List SalesBucket :=
  buckets.map (fun b =>
    if b.«業務員» == salesmanOf c then
      { b with
        «潛力客戶數» := b.«潛力客戶數» + (if isPotentialSales t c then 1 else 0),
        «訂單數量» := b.«訂單數量» + (if isDealtSales c then 1 else 0) }
    else b)

/-- The revenue pass (lines 431-455): for each salesman key, sum the deal
contributions of that salesman's customers. -/
def amountPass (customers : List Obj) (buckets : List SalesBucket) : List SalesBucket :=
  buckets.map (fun b =>
    let own := customers.filter (fun c => salesmanOf c == b.«業務員»)
    { b with «當季業績累積» := (own.map dealContribution).foldl Frac.add 0 })

/-- The rate pass (lines 458-463): conversion rate derived only where the
potential count is positive; otherwise the bucket keeps its initial 0. -/
def ratePass (buckets : List SalesBucket) : List SalesBucket :=
  buckets.map (fun b =>
    if 0 < b.«潛力客戶數» then
      { b with «成交率» := (Frac.div (fracOfNat b.«訂單數量») (fracOfNat b.«潛力客戶數»)).mul 100 }
    else b)

/-- The complete salesperson dimension. -/
def salesmenAnalysisOf (t : Frac) (customers : List Obj) : List SalesBucket :=
  ratePass (amountPass customers (customers.foldl (bumpSalesman t) (initSales customers)))

/-- `totalRevenue` as the source accumulates it inside the revenue pass:
summed per salesman key over that salesman's customers. -/
def totalRevenueOf (customers : List Obj) : Frac :=
  ((salesKeysOf customers).map (fun s =>
      ((customers.filter (fun c => salesmanOf c == s)).map dealContribution).foldl Frac.add 0)).foldl
    Frac.add 0

/-- Create the month bucket on first sight (lines 501-511), preserving
insertion order. -/
def ensureMonth (key : String) (y : Int) (buckets : List MonthBucket) : List MonthBucket :=
  if buckets.any (fun b => b.month == key) then buckets
  else buckets ++ [⟨key, y, 0, 0, 0, 0, 0⟩]

/-- Counter updates of the monthly fold for the bucket of the customer's
month (lines 513-539): the potential test reuses the clinic-style converted
set, the completed-deals test the monthly one. -/
def bumpMonth (t : Frac) (c : Obj) (b : MonthBucket) : MonthBucket :=
  let isPot := optGtF (getEarPTA c "左") t || optGtF (getEarPTA c "右") t || isDealtClinic c
  let b2 := { b with newCustomers := b.newCustomers + (if isPot then 1 else 0) }
  if isDealtMonthly c then
    { b2 with
      completedDeals := b2.completedDeals + 1,
      totalAmount :=
        match parseAmount (rawAmountOf c) with
        | none => b2.totalAmount
        | some amt => if Frac.lt 0 amt then b2.totalAmount.add amt else b2.totalAmount }
  else b2

/-- One step of the monthly fold (lines 492-540): re-read the service date,
re-parse it with the generic parser only, create the month bucket on first
sight, and bump its counters with the monthly pass's own classification. -/
def stepMonthly (t : Frac) (buckets : List MonthBucket) (c : Obj) : List MonthBucket :=
  if serviceDateOf c = "" then buckets
  else
    match genericDate (serviceDateOf c) with
    | none => buckets
    | some (y, m, _) =>
      (ensureMonth (monthKeyOf y m) y buckets).map (fun b =>
        if b.month == monthKeyOf y m then bumpMonth t c b else b)

/-- The monthly derive pass (lines 543-551): rate only where `newCustomers`
is positive, average only where `completedDeals` is positive. -/
def deriveMonthly (buckets : List MonthBucket) : List MonthBucket :=
  buckets.map (fun b =>
    let b1 :=
      if 0 < b.newCustomers then
        { b with conversionRate :=
            (Frac.div (fracOfNat b.completedDeals) (fracOfNat b.newCustomers)).mul 100 }
      else b
    if 0 < b1.completedDeals then
      { b1 with averageAmount := Frac.div b1.totalAmount (fracOfNat b1.completedDeals) }
    else b1)

/-- Ascending month order of the monthly and hearing comparators: year
first, then the month number recovered from the key string. -/
def monthLe (ay : Int) (am : String) (by_ : Int) (bm : String) : Bool :=
  decide (ay < by_) || (ay == by_ && decide (extractMonthNum am ≤ extractMonthNum bm))

/-- The complete monthly dimension: fold, derive, stable ascending sort. -/
def monthlyDataOf (t : Frac) (customers : List Obj) : List MonthBucket :=
  stableSortBy (fun a b => monthLe a.year a.month b.year b.month)
    (deriveMonthly (customers.foldl (stepMonthly t) []))

/-- One step of the clinic fold (lines 576-613). -/
def stepClinic (t : Frac) (buckets : List ClinicBucket) (c : Obj) : List ClinicBucket :=
  let clinicName := strTrim (objGet c "診所名稱")
  if clinicName = "" then buckets
  else
    let withBucket :=
      if buckets.any (fun b => b.clinic == clinicName) then buckets
      else buckets ++ [⟨clinicName, 0, 0, 0, 0, 0⟩]
    withBucket.map (fun b =>
      if b.clinic == clinicName then
        let isPot := optGtF (getEarPTA c "左") t || optGtF (getEarPTA c "右") t ||
          isDealtClinic c
        let b1 := { b with total := b.total + 1,
                           potential := b.potential + (if isPot then 1 else 0) }
        if isDealtClinic c then
          { b1 with
            dealt := b1.dealt + 1,
            totalAmount :=
              match parseAmount
                  (jsOrStr (objGet c "成交金額")
                    (jsOrStr (objGet c "金額") (jsOrStr (objGet c "價格") (objGet c "營業額")))) with
              | none => b1.totalAmount
              | some amt => if Frac.lt 0 amt then b1.totalAmount.add amt else b1.totalAmount }
        else b1
      else b)

/-- The clinic derive pass (lines 615-617): here the rate is assigned on
every bucket, with an explicit 0 for a zero total. -/
def deriveClinic (buckets : List ClinicBucket) : List ClinicBucket :=
  buckets.map (fun b =>
    { b with conversionRate :=
        if 0 < b.total then (Frac.div (fracOfNat b.dealt) (fracOfNat b.total)).mul 100 else 0 })

/-- The complete clinic dimension: fold, derive, stable sort by descending
total. -/
def clinicAnalysisOf (t : Frac) (customers : List Obj) : List ClinicBucket :=
  stableSortBy (fun a b => decide (b.total ≤ a.total))
    (deriveClinic (customers.foldl (stepClinic t) []))

/-- One step of the store fold (lines 639-659): the store column is the
first header containing both `門市` and `自帶`; rows with no such column,
an empty value or the `#N/A` placeholder are skipped. -/
def stepStore (t : Frac) (buckets : List StoreBucket) (c : Obj) : List StoreBucket :=
  match (objKeys c).find? (fun k => strContains k "門市" && strContains k "自帶") with
  | none => buckets
  | some storeKey =>
    let storeNameRaw := strTrim (objGet c storeKey)
    if storeNameRaw = "" ∨ storeNameRaw = "#N/A" then buckets
    else
      let withBucket :=
        if buckets.any (fun b => b.store == storeNameRaw) then buckets
        else buckets ++ [⟨storeNameRaw, 0, 0⟩]
      withBucket.map (fun b =>
        if b.store == storeNameRaw then
          let isPot := optGtF (getEarPTA c "左") t || optGtF (getEarPTA c "右") t ||
            isDealtStore c
          { b with total := b.total + 1, potential := b.potential + (if isPot then 1 else 0) }
        else b)

/-- The complete store dimension: fold, stable sort by descending total (no
derive pass: this dimension tracks no rate). -/
def storeReferralAnalysisOf (t : Frac) (customers : List Obj) : List StoreBucket :=
  stableSortBy (fun a b => decide (b.total ≤ a.total)) (customers.foldl (stepStore t) [])

/-- One step of the hearing-screening fold (lines 667-702): only rows whose
customer-source text contains `聽篩` participate, keyed by the generic
re-parse of the service date. -/
def stepHearing (t : Frac) (buckets : List HearingBucket) (c : Obj) : List HearingBucket :=
  let sourceVal := jsOrStr (objGet c "顧客來源") (jsOrStr (objGet c "顧客來源↵(可複選)") "")
  if !(strContains sourceVal "聽篩") then buckets
  else if serviceDateOf c = "" then buckets
  else
    match genericDate (serviceDateOf c) with
    | none => buckets
    | some (y, m, _) =>
      let key := monthKeyOf y m
      let withBucket :=
        if buckets.any (fun b => b.month == key) then buckets
        else buckets ++ [⟨key, y, 0, 0, 0, 0, 0⟩]
      withBucket.map (fun b =>
        if b.month == key then
          let isPot := optGtF (getEarPTA c "左") t || optGtF (getEarPTA c "右") t || isDealtHS c
          let b1 := { b with total := b.total + 1,
                             potential := b.potential + (if isPot then 1 else 0) }
          if isDealtHS c then
            { b1 with
              dealt := b1.dealt + 1,
              totalAmount :=
                match parseAmount
                    (jsOrStr (objGet c "成交金額")
                      (jsOrStr (objGet c "金額")
                        (jsOrStr (objGet c "價格") (objGet c "營業額")))) with
                | none => b1.totalAmount
                | some amt => if Frac.lt 0 amt then b1.totalAmount.add amt else b1.totalAmount }
          else b1
        else b)

/-- The hearing derive pass (lines 705-707): rate assigned on every bucket,
0 for a zero total. -/
def deriveHearing (buckets : List HearingBucket) : List HearingBucket :=
  buckets.map (fun b =>
    { b with conversionRate :=
        if 0 < b.total then (Frac.div (fracOfNat b.dealt) (fracOfNat b.total)).mul 100 else 0 })

/-- The complete hearing-screening dimension: fold, derive, stable
ascending month sort. -/
def hearingScreeningAnalysisOf (t : Frac) (customers : List Obj) : List HearingBucket :=
  stableSortBy (fun a b => monthLe a.year a.month b.year b.month)
    (deriveHearing (customers.foldl (stepHearing t) []))

/-- The caller-supplied inclusive month window. -/
structure DateRange where
  startYear : Int
  startMonth : Int
  endYear : Int
  endMonth : Int
deriving DecidableEq

/-- `new Date(startYear, startMonth - 1, 1)`: lower window bound. -/
def windowLo (w : DateRange) : Int := ctorDay w.startYear (w.startMonth - 1) 1

/-- `new Date(endYear, endMonth, 0)`: upper window bound (day 0 of the
zero-based month `endMonth` is the last day of the one-based month
`endMonth`). -/
def windowHi (w : DateRange) : Int := ctorDay w.endYear w.endMonth 0

/-- The date-column predicate of the field resolver (source lines
222-224). -/
def dateHeaderMatch (h : String) : Bool :=
  strContains h "初次到店" || strContains h "日期" || strContains h "Date"

/-- `headers.findIndex(...)` for the date column; `none` models `-1`. -/
def dateIdx (headers : List String) : Option Nat := headers.findIdx? dateHeaderMatch

/-- Whether a data row survives the filtering loop (lines 254-296): a
nonempty trimmed date cell, a successful anchor parse, and a parsed day
inside the inclusive window. -/
def rowKept (di : Nat) (w : DateRange) (row : List String) : Bool :=
  if strTrim (row.getD di "") = "" then false
  else
    match parseAnchorDay (strTrim (row.getD di "")) with
    | none => false
    | some day => decide (windowLo w ≤ day) && decide (day ≤ windowHi w)

/-- The customer object built from one surviving row (lines 354-364): every
header label keyed to `values[i][index] || ''`. -/
def rowToCustomer (headers row : List String) : Obj :=
  headers.enum.map (fun p => (p.2, row.getD p.1 ""))

/-- The final analysis result, as assembled by the second
`setCustomerAnalysis` call (lines 624-634) together with the four satellite
aggregates the sibling setters store. -/
structure AnalysisResult where
  monthlyData : List MonthBucket
  totalCustomers : Nat
  totalCompletedDeals : Nat
  totalAmount : Frac
  overallConversionRate : Frac
  earliest : String
  latest : String
  salesmenAnalysis : List SalesBucket
  clinicAnalysis : List ClinicBucket
  storeReferralAnalysis : List StoreBucket
  hearingScreeningAnalysis : List HearingBucket
deriving DecidableEq

/-- All aggregates computed from the filtered, materialized customer
objects and the threshold. -/
def assembleResult (customers : List Obj) (t : Frac) : AnalysisResult :=
  { monthlyData := monthlyDataOf t customers
    totalCustomers := customers.countP (isPotentialSales t)
    totalCompletedDeals := customers.countP isDealtSales
    totalAmount := totalRevenueOf customers
    overallConversionRate :=
      (if 0 < customers.countP (isPotentialSales t) then
        (Frac.div (fracOfNat (customers.countP isDealtSales))
          (fracOfNat (customers.countP (isPotentialSales t)))).mul 100
      else 0)
    earliest :=
      (match customers.head? with
      | none => ""
      | some c => serviceDateOf c)
    latest :=
      (match customers.getLast? with
      | none => ""
      | some c => serviceDateOf c)
    salesmenAnalysis := salesmenAnalysisOf t customers
    clinicAnalysis := clinicAnalysisOf t customers
    storeReferralAnalysis := storeReferralAnalysisOf t customers
    hearingScreeningAnalysis := hearingScreeningAnalysisOf t customers }

/-- Observable outcome of one invocation of `performCustomerAnalysis`. -/
inductive AnalysisOutcome where
  /-- Nothing is set: fewer than two grid rows, or no row survived the
  window filter (the `filteredRows.length > 0` guard failed). -/
  | noResult : AnalysisOutcome
  /-- `setError('找不到日期相關欄位...')`: no resolvable date column; no
  partial result is produced. -/
  | errNoDateColumn : AnalysisOutcome
  /-- The assembled report. -/
  | result : AnalysisResult → AnalysisOutcome
deriving DecidableEq

/-- The engine: resolve the date column (the status and amount columns the
source also resolves feed only the console-log row metadata, which has no
observable effect), filter the data rows by parsed anchor date against the
window, materialize the survivors as customer objects, and assemble every
aggregate from that one list. -/
def performCustomerAnalysis (g : List (List String)) (w : DateRange) (t : Frac) :
    AnalysisOutcome :=
  if g.length < 2 then AnalysisOutcome.noResult
  else
    match dateIdx (g.headD []) with
    | none => AnalysisOutcome.errNoDateColumn
    | some di =>
      if ((g.drop 1).filter (rowKept di w)).isEmpty then AnalysisOutcome.noResult
      else
        AnalysisOutcome.result
          (assembleResult (((g.drop 1).filter (rowKept di w)).map (rowToCustomer (g.headD []))) t)

/-- Scenario A's grid: one converted, above-threshold customer. -/
def gridA : List (List String) :=
  [["初次到店", "是否成交", "成交金額", "左耳PTA", "右耳PTA", "主聽力師"],
   ["2024/03/15", "是", "15000", "50", "20", "王小明"]]

/-- The 2024 calendar-year window, covering March 2024. -/
def win2024 : DateRange := ⟨2024, 1, 2024, 12⟩

/-- Scenario B's grid: scenario A's row dated a year before the window. -/
def gridB : List (List String) :=
  [["初次到店", "是否成交", "成交金額", "左耳PTA", "右耳PTA", "主聽力師"],
   ["2023/03/15", "是", "15000", "50", "20", "王小明"]]

/-- A grid whose only row is marked converted solely through its `狀態`
cell. -/
def gridStatus : List (List String) :=
  [["初次到店", "狀態", "主聽力師"], ["2024/03/15", "成交", "王"]]

/-- A grid whose only row is below threshold on both ears and carries no
converted marker. -/
def gridD : List (List String) :=
  [["初次到店", "左耳PTA", "右耳PTA", "主聽力師"], ["2024/03/15", "30", "20", "王"]]

/-- A grid whose only row passes the window filter through the localized
`YYYY年MM月DD日` anchor form that the generic parser rejects. -/
def gridE : List (List String) :=
  [["初次到店", "是否成交", "主聽力師", "診所名稱", "顧客來源", "門市(自帶)"],
   ["2024年3月15日", "是", "王", "仁心診所", "聽篩活動", "桃園藝文店"]]

/-- The materialized customer object of `gridStatus`'s single row. -/
def custStatus : Obj := rowToCustomer (gridStatus.headD []) (gridStatus.getD 1 [])

/-- C1 counterexample: the record of `gridStatus` is converted for the
salesperson pass (via `狀態 = 成交`) but not for the monthly pass, so the
assembled report counts it in `totalCompletedDeals` while its monthly
bucket shows `completedDeals = 0` — the five dimensions do not share one
converted flag, contradicting the claim at this concrete input. -/
theorem claim_C1_counterexample :
    performCustomerAnalysis gridStatus win2024 40 =
      AnalysisOutcome.result
        ⟨[⟨"2024年3月", 2024, 1, 0, 0, 0, 0⟩], 1, 1, 0, 100, "2024/03/15", "2024/03/15",
         [⟨"王", 1, 1, 100, 0⟩], [], [], []⟩ ∧
    isDealtSales custStatus = true ∧ isDealtMonthly custStatus = false ∧
    isDealtSales [("是否有借機", "是")] = false := by
  refine ⟨by decide, by decide, by decide, by decide⟩

/-- C1 (amended): each dimension recomputes its own converted flag; the
salesperson and hearing-screening sets agree (是否成交/成交 equal to 是 or
TRUE, 是否借機 equal to 是 or TRUE, 是否有借機 equal to TRUE, or 狀態 in
{成交, 已成交} — note 是否有借機 = 是 never counts), the clinic and store
sets agree and additionally drop 是否有借機 and 是否借機 = 是, and the
monthly completed-deals set ignores 成交 and 狀態 entirely; every
per-dimension flag implies the salesperson flag. -/
theorem claim_C1 (c : Obj) :
    (isDealtHS c = isDealtSales c) ∧
    (isDealtStore c = isDealtClinic c) ∧
    (isDealtMonthly c = true → isDealtSales c = true) ∧
    (isDealtClinic c = true → isDealtSales c = true) ∧
    (isDealtSales c = true ↔
      (objGet c "是否成交" = "是" ∨ objGet c "是否成交" = "TRUE" ∨
       objGet c "是否借機" = "是" ∨ objGet c "是否借機" = "TRUE" ∨
       objGet c "是否有借機" = "TRUE" ∨
       objGet c "成交" = "是" ∨ objGet c "成交" = "TRUE" ∨
       objGet c "狀態" = "成交" ∨ objGet c "狀態" = "已成交")) := by
  refine ⟨rfl, rfl, ?_, ?_, ?_⟩
  · intro h
    simp only [isDealtMonthly, Bool.or_eq_true, beq_iff_eq] at h
    simp only [isDealtSales, Bool.or_eq_true, beq_iff_eq]
    tauto
  · intro h
    simp only [isDealtClinic, Bool.or_eq_true, beq_iff_eq] at h
    simp only [isDealtSales, Bool.or_eq_true, beq_iff_eq]
    tauto
  · simp only [isDealtSales, Bool.or_eq_true, beq_iff_eq]
    tauto

/-- C1 witness: the amended characterization applied at the two concrete
records of the counterexample. -/
theorem claim_C1_witness :
    isDealtSales custStatus = true ∧ isDealtSales [("是否有借機", "TRUE")] = true :=
  ⟨(claim_C1 custStatus).2.2.2.2.mpr (by decide),
   (claim_C1 [("是否有借機", "TRUE")]).2.2.2.2.mpr (by decide)⟩

/-- C2: on scenario A's grid with threshold 40 and the 2024 window, the
report holds exactly one monthly bucket `2024年3月` with one new customer,
one completed deal, amount 15000 and rate 100, and exactly one specialist
entry for 王小明 with one order, one potential customer and accumulated
revenue 15000. -/
theorem claim_C2 :
    ∃ r, performCustomerAnalysis gridA win2024 40 = AnalysisOutcome.result r ∧
      r.monthlyData = [⟨"2024年3月", 2024, 1, 1, 100, 15000, 15000⟩] ∧
      r.salesmenAnalysis = [⟨"王小明", 1, 1, 100, 15000⟩] ∧
      r.totalAmount = 15000 ∧ r.overallConversionRate = 100 :=
  ⟨⟨[⟨"2024年3月", 2024, 1, 1, 100, 15000, 15000⟩], 1, 1, 15000, 100, "2024/03/15", "2024/03/15",
    [⟨"王小明", 1, 1, 100, 15000⟩], [], [], []⟩,
   by decide, rfl, rfl, rfl, rfl⟩

/-- C5 counterexample: with scenario B's out-of-window row the engine
produces no analysis result at all (the `filteredRows.length > 0` guard
fails and nothing is set), so no result with zero totals exists, contrary
to the claim. -/
theorem claim_C5_counterexample :
    performCustomerAnalysis gridB win2024 40 = AnalysisOutcome.noResult ∧
    ∀ r : AnalysisResult, performCustomerAnalysis gridB win2024 40 ≠ AnalysisOutcome.result r := by
  refine ⟨by decide, ?_⟩
  intro r h
  rw [show performCustomerAnalysis gridB win2024 40 = AnalysisOutcome.noResult by decide] at h
  exact AnalysisOutcome.noConfusion h

/-- C5 (amended): scenario B's row is excluded by the window filter, and
since no record survives the engine sets no result structure at all — the
previous analysis state is left unchanged — rather than producing a result
whose global totals are zero. -/
theorem claim_C5 :
    rowKept 0 win2024 (gridB.getD 1 []) = false ∧
    performCustomerAnalysis gridB win2024 40 = AnalysisOutcome.noResult := by
  exact ⟨by decide, by decide⟩

/-- C3: the salesperson-pass potential flag holds exactly when a parsed ear
value exceeds the threshold or the record is converted; a NaN ear value
(`none`) never satisfies the comparison, so a record with no parseable PTA
and no converted marker is not potential. -/
theorem claim_C3 (c : Obj) (t : Frac) :
    (isPotentialSales t c = true ↔
      ((∃ v, getEarPTA c "左" = some v ∧ Frac.lt t v = true) ∨
       (∃ v, getEarPTA c "右" = some v ∧ Frac.lt t v = true) ∨
       isDealtSales c = true)) ∧
    (getEarPTA c "左" = none → getEarPTA c "右" = none → isDealtSales c = false →
      isPotentialSales t c = false) := by
  constructor
  · unfold isPotentialSales optGtF
    rcases hL : getEarPTA c "左" with _ | v <;> rcases hR : getEarPTA c "右" with _ | w <;>
      (simp; try tauto)
  · intro hL hR hD
    unfold isPotentialSales optGtF
    rw [hL, hR, hD]
    rfl

/-- C3 witness: the characterization applied at a record whose left ear
exceeds the threshold, and at a record with no PTA data and no converted
marker. -/
theorem claim_C3_witness :
    isPotentialSales 40 [("左耳PTA", "50")] = true ∧
    isPotentialSales 40 [("備註", "x")] = false :=
  ⟨(claim_C3 [("左耳PTA", "50")] 40).1.mpr (Or.inl ⟨⟨50, 1⟩, by decide, by decide⟩),
   (claim_C3 [("備註", "x")] 40).2 (by decide) (by decide) (by decide)⟩

/-- C7: the currency parser strips every character that is not a digit or a
dot and float-parses the rest, so `NT$152,000.00` parses to `152000`; a
value with nothing left after stripping is NaN, and a NaN amount
contributes nothing to any monetary sum. -/
theorem claim_C7 :
    parseAmount "NT$152,000.00" = some (152000 : Frac) ∧
    (∀ s : String, cleanNumeric s = [] → parseAmount s = none) ∧
    (∀ c : Obj, parseAmount (rawAmountOf c) = none → dealContribution c = 0) := by
  refine ⟨by decide, ?_, ?_⟩
  · intro s h
    unfold parseAmount
    rw [h]
    split <;> rfl
  · intro c h
    unfold dealContribution
    rw [h]

/-- C7 witness: an all-stripped amount cell is NaN, and a converted record
carrying it adds nothing. -/
theorem claim_C7_witness :
    parseAmount "NT$" = none ∧ dealContribution [("成交金額", "NT$"), ("是否成交", "是")] = 0 :=
  ⟨claim_C7.2.1 "NT$" (by decide), claim_C7.2.2 [("成交金額", "NT$"), ("是否成交", "是")] (by decide)⟩

/-- C10 (implicit): `gridE`'s row enters through the window filter via the
localized structural pattern, which the generic parser of the monthly and
hearing-screening passes rejects; the record is therefore counted in the
global totals and in the salesperson, clinic and store dimensions, yet no
monthly or campaign-source bucket exists, and the sum of monthly
`newCustomers` is strictly below `totalCustomers`. -/
theorem claim_C10 :
    ∃ r, performCustomerAnalysis gridE win2024 40 = AnalysisOutcome.result r ∧
      r.monthlyData = [] ∧ r.hearingScreeningAnalysis = [] ∧
      r.totalCustomers = 1 ∧ r.totalCompletedDeals = 1 ∧
      r.salesmenAnalysis ≠ [] ∧ r.clinicAnalysis ≠ [] ∧ r.storeReferralAnalysis ≠ [] ∧
      (r.monthlyData.map MonthBucket.newCustomers).sum < r.totalCustomers ∧
      genericDate "2024年3月15日" = none ∧
      rowKept 0 win2024 (gridE.getD 1 []) = true :=
  ⟨⟨[], 1, 1, 0, 100, "2024年3月15日", "2024年3月15日",
    [⟨"王", 1, 1, 100, 0⟩], [⟨"仁心診所", 1, 1, 1, 100, 0⟩], [⟨"桃園藝文店", 1, 1⟩], []⟩,
   by decide, rfl, rfl, rfl, rfl, by decide, by decide, by decide, by decide, by decide, by decide⟩

/-- C6: on a grid with at least a header and one data row, the analysis
fails — with the single date-column error and no result of any kind — if
and only if no header matches the date predicate (contains 初次到店, 日期
or Date); whenever some header does match, the error can never occur, so
in particular a missing status or amount column is never fatal. -/
theorem claim_C6 (g : List (List String)) (w : DateRange) (t : Frac) (hg : 2 ≤ g.length) :
    (performCustomerAnalysis g w t = AnalysisOutcome.errNoDateColumn ↔
      ∀ h ∈ g.headD [], dateHeaderMatch h = false) ∧
    ((∃ h ∈ g.headD [], dateHeaderMatch h = true) →
      performCustomerAnalysis g w t ≠ AnalysisOutcome.errNoDateColumn) := by
  have hlen : ¬(g.length < 2) := by omega
  have key : performCustomerAnalysis g w t = AnalysisOutcome.errNoDateColumn ↔
      dateIdx (g.headD []) = none := by
    unfold performCustomerAnalysis
    rw [if_neg hlen]
    cases hidx : dateIdx (g.headD []) with
    | none => simp
    | some di => simp [ite_eq_iff]
  constructor
  · rw [key]
    unfold dateIdx
    exact List.findIdx?_eq_none_iff
  · rintro ⟨h, hmem, hmatch⟩ hcon
    rw [key] at hcon
    unfold dateIdx at hcon
    rw [List.findIdx?_eq_none_iff] at hcon
    rw [hcon h hmem] at hmatch
    exact Bool.noConfusion hmatch

/-- C6 witness: a grid without any date-like header fails with the schema
error, and scenario A's grid never does. -/
theorem claim_C6_witness :
    performCustomerAnalysis [["姓名"], ["王"]] win2024 40 = AnalysisOutcome.errNoDateColumn ∧
    performCustomerAnalysis gridA win2024 40 ≠ AnalysisOutcome.errNoDateColumn :=
  ⟨(claim_C6 [["姓名"], ["王"]] win2024 40 (by decide)).1.mpr (by decide),
   (claim_C6 gridA win2024 40 (by decide)).2 ⟨"初次到店", by decide, by decide⟩⟩

/-- A converted record is always also potential for the salesperson pass:
the potential test ends in `|| isDealt`. -/
theorem isDealtSales_imp_isPotentialSales (t : Frac) (c : Obj) (h : isDealtSales c = true) :
    isPotentialSales t c = true := by
  simp [isPotentialSales, h]

/-- Fold preservation of an invariant on the accumulator. -/
theorem foldl_preserve {α β : Type} {P : α → Prop} (f : α → β → α)
    (hf : ∀ a b, P a → P (f a b)) : ∀ (xs : List β) (a : α), P a → P (xs.foldl f a)
  | [], _, ha => ha
  | x :: xs, a, ha => foldl_preserve f hf xs (f a x) (hf a x ha)

/-- One counting step keeps the per-bucket order count below the potential
count, because an order increment always comes with a potential one. -/
theorem bumpSalesman_le {t : Frac} {c : Obj} {l : List SalesBucket}
    (hl : ∀ b ∈ l, b.«訂單數量» ≤ b.«潛力客戶數») :
    ∀ b ∈ bumpSalesman t l c, b.«訂單數量» ≤ b.«潛力客戶數» := by
  intro b hb
  rcases List.mem_map.mp hb with ⟨a, ha, rfl⟩
  have hle := hl a ha
  by_cases hkey : (a.«業務員» == salesmanOf c) = true
  · rw [if_pos hkey]
    by_cases hd : isDealtSales c = true
    · have hp : isPotentialSales t c = true := isDealtSales_imp_isPotentialSales t c hd
      have hgoal : a.«訂單數量» + 1 ≤ a.«潛力客戶數» + 1 := by omega
      simpa [hd, hp] using hgoal
    · simp only [Bool.not_eq_true] at hd
      simp [hd]
      split <;> omega
  · rw [if_neg hkey]
    exact hle

/-- Neither the counting fold nor the later passes ever touch a bucket's
rate before the rate pass itself. -/
theorem bumpSalesman_rate0 {t : Frac} {c : Obj} {l : List SalesBucket}
    (hl : ∀ b ∈ l, b.«成交率» = 0) : ∀ b ∈ bumpSalesman t l c, b.«成交率» = 0 := by
  intro b hb
  rcases List.mem_map.mp hb with ⟨a, ha, rfl⟩
  have h0 := hl a ha
  split <;> exact h0

/-- Buckets created by the init loop carry zero counters and a zero rate. -/
theorem initSales_fields {cs : List Obj} :
    ∀ b ∈ initSales cs, b.«訂單數量» = 0 ∧ b.«潛力客戶數» = 0 ∧ b.«成交率» = 0 := by
  intro b hb
  rcases List.mem_map.mp hb with ⟨s, _, rfl⟩
  exact ⟨rfl, rfl, rfl⟩

/-- The revenue pass leaves both counters and the rate unchanged. -/
theorem amountPass_fields {cs : List Obj} {l : List SalesBucket} :
    ∀ b ∈ amountPass cs l, ∃ a ∈ l,
      b.«訂單數量» = a.«訂單數量» ∧ b.«潛力客戶數» = a.«潛力客戶數» ∧ b.«成交率» = a.«成交率» := by
  intro b hb
  rcases List.mem_map.mp hb with ⟨a, ha, rfl⟩
  exact ⟨a, ha, rfl, rfl, rfl⟩

/-- The rate pass leaves the counters unchanged, and leaves the rate
unchanged on every bucket with zero potential count. -/
theorem ratePass_fields {l : List SalesBucket} :
    ∀ b ∈ ratePass l, ∃ a ∈ l,
      b.«訂單數量» = a.«訂單數量» ∧ b.«潛力客戶數» = a.«潛力客戶數» ∧
      (b.«成交率» = a.«成交率» ∨ 0 < a.«潛力客戶數») := by
  intro b hb
  rcases List.mem_map.mp hb with ⟨a, ha, rfl⟩
  by_cases hp : 0 < a.«潛力客戶數»
  · rw [if_pos hp]
    exact ⟨a, ha, rfl, rfl, Or.inr hp⟩
  · rw [if_neg hp]
    exact ⟨a, ha, rfl, rfl, Or.inl rfl⟩

/-- Per-specialist invariant on the finished dimension: the order count
never exceeds the potential count. -/
theorem salesmenAnalysisOf_le (t : Frac) (cs : List Obj) :
    ∀ b ∈ salesmenAnalysisOf t cs, b.«訂單數量» ≤ b.«潛力客戶數» := by
  intro b hb
  unfold salesmenAnalysisOf at hb
  obtain ⟨a, ha, e1, e2, _⟩ := ratePass_fields b hb
  obtain ⟨a2, ha2, f1, f2, _⟩ := amountPass_fields a ha
  have hfold : ∀ x ∈ cs.foldl (bumpSalesman t) (initSales cs),
      x.«訂單數量» ≤ x.«潛力客戶數» := by
    refine foldl_preserve (P := fun l => ∀ x ∈ l, x.«訂單數量» ≤ x.«潛力客戶數»)
      (bumpSalesman t) (fun l c hl => bumpSalesman_le hl) cs (initSales cs) ?_
    intro x hx
    obtain ⟨h1, h2, _⟩ := initSales_fields x hx
    omega
  have := hfold a2 ha2
  omega

/-- Per-specialist invariant: a zero potential count leaves the rate at its
initial 0. -/
theorem salesmenAnalysisOf_rate0 (t : Frac) (cs : List Obj) :
    ∀ b ∈ salesmenAnalysisOf t cs, b.«潛力客戶數» = 0 → b.«成交率» = 0 := by
  intro b hb hp
  unfold salesmenAnalysisOf at hb
  obtain ⟨a, ha, _, e2, hrate⟩ := ratePass_fields b hb
  obtain ⟨a2, ha2, _, f2, frate⟩ := amountPass_fields a ha
  have hfold : ∀ x ∈ cs.foldl (bumpSalesman t) (initSales cs), x.«成交率» = 0 := by
    refine foldl_preserve (P := fun l => ∀ x ∈ l, x.«成交率» = 0)
      (bumpSalesman t) (fun l c hl => bumpSalesman_rate0 hl) cs (initSales cs) ?_
    intro x hx
    exact (initSales_fields x hx).2.2
  rcases hrate with h | h
  · rw [h, frate]
    exact hfold a2 ha2
  · omega

/-- The extraction underlying every claim about an assembled report: a
`result` outcome is the assembly of some materialized customer list. -/
theorem perform_result_eq {g : List (List String)} {w : DateRange} {t : Frac}
    {r : AnalysisResult} (h : performCustomerAnalysis g w t = AnalysisOutcome.result r) :
    ∃ cs : List Obj, r = assembleResult cs t := by
  unfold performCustomerAnalysis at h
  split at h
  · exact absurd h (by simp)
  · split at h
    · exact absurd h (by simp)
    · split at h
      · exact absurd h (by simp)
      · cases h
        exact ⟨_, rfl⟩

/-- C8: in every assembled report, every specialist bucket counts at least
as many potential customers as orders, because a converted record is always
also counted as potential. -/
theorem claim_C8 (g : List (List String)) (w : DateRange) (t : Frac) (r : AnalysisResult)
    (h : performCustomerAnalysis g w t = AnalysisOutcome.result r) :
    ∀ b ∈ r.salesmenAnalysis, b.«訂單數量» ≤ b.«潛力客戶數» := by
  obtain ⟨cs, rfl⟩ := perform_result_eq h
  exact salesmenAnalysisOf_le t cs

/-- C8 witness: the invariant applied to scenario A's specialist bucket. -/
theorem claim_C8_witness :
    SalesBucket.«訂單數量» ⟨"王小明", 1, 1, 100, 15000⟩ ≤
      SalesBucket.«潛力客戶數» ⟨"王小明", 1, 1, 100, 15000⟩ :=
  claim_C8 gridA win2024 40
    ⟨[⟨"2024年3月", 2024, 1, 1, 100, 15000, 15000⟩], 1, 1, 15000, 100, "2024/03/15", "2024/03/15",
     [⟨"王小明", 1, 1, 100, 15000⟩], [], [], []⟩
    (by decide) ⟨"王小明", 1, 1, 100, 15000⟩ (by decide)

/-- Stable insertion only adds the inserted element. -/
theorem mem_insertLe {α : Type} {le : α → α → Bool} {x b : α} :
    ∀ {l : List α}, b ∈ insertLe le x l → b = x ∨ b ∈ l := by
  intro l
  induction l with
  | nil =>
    intro h
    simp only [insertLe] at h
    exact Or.inl (List.mem_singleton.mp h)
  | cons y ys ih =>
    intro h
    simp only [insertLe] at h
    split at h
    · rcases List.mem_cons.mp h with h1 | h2
      · exact Or.inr (List.mem_cons.mpr (Or.inl h1))
      · rcases ih h2 with h3 | h4
        · exact Or.inl h3
        · exact Or.inr (List.mem_cons.mpr (Or.inr h4))
    · rcases List.mem_cons.mp h with h1 | h2
      · exact Or.inl h1
      · exact Or.inr h2

/-- Folding stable insertions only rearranges the inputs. -/
theorem mem_foldl_insert {α : Type} {le : α → α → Bool} {b : α} :
    ∀ (xs acc : List α), b ∈ xs.foldl (fun a x => insertLe le x a) acc → b ∈ acc ∨ b ∈ xs
  | [], _, h => Or.inl h
  | x :: xs, acc, h => by
    rcases mem_foldl_insert xs (insertLe le x acc) h with h1 | h2
    · rcases mem_insertLe h1 with rfl | h3
      · exact Or.inr (List.mem_cons.mpr (Or.inl rfl))
      · exact Or.inl h3
    · exact Or.inr (List.mem_cons.mpr (Or.inr h2))

/-- The stable sort is a permutation-level no-op for membership. -/
theorem mem_stableSortBy {α : Type} {le : α → α → Bool} {b : α} {l : List α}
    (h : b ∈ stableSortBy le l) : b ∈ l := by
  unfold stableSortBy at h
  rcases mem_foldl_insert l [] h with h1 | h2
  · cases h1
  · exact h2

/-- The monthly counter update never touches the derived rate or average. -/
theorem bumpMonth_rate_avg (t : Frac) (c : Obj) (b : MonthBucket) :
    (bumpMonth t c b).conversionRate = b.conversionRate ∧
    (bumpMonth t c b).averageAmount = b.averageAmount := by
  unfold bumpMonth
  split <;> exact ⟨rfl, rfl⟩

/-- Bucket creation only adds the zeroed bucket. -/
theorem mem_ensureMonth {key : String} {y : Int} {l : List MonthBucket} {b : MonthBucket}
    (hb : b ∈ ensureMonth key y l) : b ∈ l ∨ b = ⟨key, y, 0, 0, 0, 0, 0⟩ := by
  unfold ensureMonth at hb
  split at hb
  · exact Or.inl hb
  · rcases List.mem_append.mp hb with h | h
    · exact Or.inl h
    · exact Or.inr (List.mem_singleton.mp h)

/-- Through the monthly fold every bucket keeps a zero rate and average:
they are only assigned by the derive pass. -/
theorem stepMonthly_zero {t : Frac} {c : Obj} {l : List MonthBucket}
    (hl : ∀ b ∈ l, b.conversionRate = 0 ∧ b.averageAmount = 0) :
    ∀ b ∈ stepMonthly t l c, b.conversionRate = 0 ∧ b.averageAmount = 0 := by
  intro b hb
  unfold stepMonthly at hb
  split at hb
  · exact hl b hb
  · split at hb
    · exact hl b hb
    · rcases List.mem_map.mp hb with ⟨a, ha, rfl⟩
      have haz : a.conversionRate = 0 ∧ a.averageAmount = 0 := by
        rcases mem_ensureMonth ha with h | rfl
        · exact hl a h
        · exact ⟨rfl, rfl⟩
      split
      · obtain ⟨h1, h2⟩ := bumpMonth_rate_avg t c a
        rw [h1, h2]
        exact haz
      · exact haz

/-- The monthly derive pass leaves a zero rate on a bucket with no new
customers and a zero average on a bucket with no completed deals. -/
theorem deriveMonthly_zeroes {l : List MonthBucket}
    (hl : ∀ b ∈ l, b.conversionRate = 0 ∧ b.averageAmount = 0) :
    ∀ b ∈ deriveMonthly l,
      (b.newCustomers = 0 → b.conversionRate = 0) ∧
      (b.completedDeals = 0 → b.averageAmount = 0) := by
  intro b hb
  rcases List.mem_map.mp hb with ⟨a, ha, rfl⟩
  obtain ⟨h1, h2⟩ := hl a ha
  by_cases hn : 0 < a.newCustomers <;> by_cases hc : 0 < a.completedDeals <;>
    simp only [hn, hc, if_true, if_false] <;>
    constructor <;> intro h <;> first | omega | assumption

/-- Monthly dimension: zero denominators yield zero stored rates and
averages. -/
theorem monthlyDataOf_zeroes (t : Frac) (cs : List Obj) :
    ∀ b ∈ monthlyDataOf t cs,
      (b.newCustomers = 0 → b.conversionRate = 0) ∧
      (b.completedDeals = 0 → b.averageAmount = 0) := by
  intro b hb
  unfold monthlyDataOf at hb
  refine deriveMonthly_zeroes ?_ b (mem_stableSortBy hb)
  exact foldl_preserve (P := fun l => ∀ x ∈ l, x.conversionRate = 0 ∧ x.averageAmount = 0)
    (stepMonthly t) (fun l c hl => stepMonthly_zero hl) cs [] (by intro x hx; cases hx)

/-- The clinic derive pass stores rate 0 on a zero-total bucket. -/
theorem deriveClinic_zero {l : List ClinicBucket} :
    ∀ b ∈ deriveClinic l, b.total = 0 → b.conversionRate = 0 := by
  intro b hb htot
  rcases List.mem_map.mp hb with ⟨a, ha, rfl⟩
  have ht : a.total = 0 := htot
  have hneg : ¬(0 < a.total) := by omega
  simp [deriveClinic, hneg]

/-- The hearing derive pass stores rate 0 on a zero-total bucket. -/
theorem deriveHearing_zero {l : List HearingBucket} :
    ∀ b ∈ deriveHearing l, b.total = 0 → b.conversionRate = 0 := by
  intro b hb htot
  rcases List.mem_map.mp hb with ⟨a, ha, rfl⟩
  have ht : a.total = 0 := htot
  have hneg : ¬(0 < a.total) := by omega
  simp [deriveHearing, hneg]

/-- C9: in every assembled report, a zero denominator always leaves a
stored rate or average of 0 — for specialists with no potential customers,
monthly buckets with no new customers or no completed deals, a zero overall
potential total, and zero-total clinic or campaign buckets — and never an
error or a NaN-like value. -/
theorem claim_C9 (g : List (List String)) (w : DateRange) (t : Frac) (r : AnalysisResult)
    (h : performCustomerAnalysis g w t = AnalysisOutcome.result r) :
    (∀ b ∈ r.salesmenAnalysis, b.«潛力客戶數» = 0 → b.«成交率» = 0) ∧
    (∀ b ∈ r.monthlyData, (b.newCustomers = 0 → b.conversionRate = 0) ∧
      (b.completedDeals = 0 → b.averageAmount = 0)) ∧
    (r.totalCustomers = 0 → r.overallConversionRate = 0) ∧
    (∀ b ∈ r.clinicAnalysis, b.total = 0 → b.conversionRate = 0) ∧
    (∀ b ∈ r.hearingScreeningAnalysis, b.total = 0 → b.conversionRate = 0) := by
  obtain ⟨cs, rfl⟩ := perform_result_eq h
  refine ⟨salesmenAnalysisOf_rate0 t cs, monthlyDataOf_zeroes t cs, ?_, ?_, ?_⟩
  · intro h0
    have h0' : cs.countP (isPotentialSales t) = 0 := h0
    show (if 0 < cs.countP (isPotentialSales t) then
        (Frac.div (fracOfNat (cs.countP isDealtSales))
          (fracOfNat (cs.countP (isPotentialSales t)))).mul 100
      else 0) = 0
    rw [h0']
    simp
  · intro b hb
    have hb' : b ∈ clinicAnalysisOf t cs := hb
    unfold clinicAnalysisOf at hb'
    exact deriveClinic_zero b (mem_stableSortBy hb')
  · intro b hb
    have hb' : b ∈ hearingScreeningAnalysisOf t cs := hb
    unfold hearingScreeningAnalysisOf at hb'
    exact deriveHearing_zero b (mem_stableSortBy hb')

/-- The report of the below-threshold, unconverted grid `gridD`: every
counter and every derived rate is zero. -/
def resD : AnalysisResult :=
  ⟨[⟨"2024年3月", 2024, 0, 0, 0, 0, 0⟩], 0, 0, 0, 0, "2024/03/15", "2024/03/15",
   [⟨"王", 0, 0, 0, 0⟩], [], [], []⟩

/-- C9 witness: the zero-denominator guarantees applied to `gridD`'s
report, whose only specialist has no potential customers and whose only
monthly bucket has no new customers and no completed deals. -/
theorem claim_C9_witness :
    SalesBucket.«成交率» ⟨"王", 0, 0, 0, 0⟩ = 0 ∧
    MonthBucket.conversionRate ⟨"2024年3月", 2024, 0, 0, 0, 0, 0⟩ = 0 ∧
    MonthBucket.averageAmount ⟨"2024年3月", 2024, 0, 0, 0, 0, 0⟩ = 0 ∧
    AnalysisResult.overallConversionRate resD = 0 := by
  have h := claim_C9 gridD win2024 40 resD (by decide)
  exact ⟨h.1 ⟨"王", 0, 0, 0, 0⟩ (by decide) (by decide),
    (h.2.1 ⟨"2024年3月", 2024, 0, 0, 0, 0, 0⟩ (by decide)).1 (by decide),
    (h.2.1 ⟨"2024年3月", 2024, 0, 0, 0, 0, 0⟩ (by decide)).2 (by decide),
    h.2.2.1 (by decide)⟩

/-- The last day of the one-based month `m` of year `y`: the day before the
first of the next month. -/
def lastDayOfMonth (y m : Int) : Int :=
  (if m = 12 then daysFromCivil (y + 1) 1 1 else daysFromCivil y (m + 1) 1) - 1

/-- Whether the filtering loop of the engine on grid `g` would drop `row`:
no date column is resolvable, or the row fails the anchor parse or the
window test. -/
def rowExcluded (g : List (List String)) (w : DateRange) (row : List String) : Bool :=
  match dateIdx (g.headD []) with
  | none => true
  | some di => !(rowKept di w row)

/-- The day count is an affine function of the day component (this is what
makes day-0 and day-overflow constructions roll over correctly). -/
theorem daysFromCivil_sub_one (y m d : Int) :
    daysFromCivil y m d = daysFromCivil y m 1 + (d - 1) := by
  unfold daysFromCivil
  ring

/-- The lower window bound is the first day of the start month. -/
theorem windowLo_eq (w : DateRange) (hy : 100 ≤ w.startYear)
    (h1 : 1 ≤ w.startMonth) (h2 : w.startMonth ≤ 12) :
    windowLo w = daysFromCivil w.startYear w.startMonth 1 := by
  unfold windowLo ctorDay
  have hadj : ¬(0 ≤ w.startYear ∧ w.startYear ≤ 99) := by omega
  rw [if_neg hadj]
  have hf : Int.fdiv (w.startMonth - 1) 12 = 0 := by
    rw [Int.fdiv_eq_ediv _ (by norm_num)]
    omega
  have hm : Int.emod (w.startMonth - 1) 12 = w.startMonth - 1 := by
    show (w.startMonth - 1) % 12 = w.startMonth - 1
    omega
  rw [hf, hm]
  norm_num

/-- The upper window bound is the last day of the end month. -/
theorem windowHi_eq (w : DateRange) (hy : 100 ≤ w.endYear)
    (h1 : 1 ≤ w.endMonth) (h2 : w.endMonth ≤ 12) :
    windowHi w = lastDayOfMonth w.endYear w.endMonth := by
  unfold windowHi ctorDay lastDayOfMonth
  have hadj : ¬(0 ≤ w.endYear ∧ w.endYear ≤ 99) := by omega
  rw [if_neg hadj]
  by_cases h12 : w.endMonth = 12
  · rw [if_pos h12, h12]
    have hf : Int.fdiv (12 : Int) 12 = 1 := by decide
    have hm : Int.emod (12 : Int) 12 = 0 := by decide
    rw [hf, hm, daysFromCivil_sub_one (w.endYear + 1) (0 + 1) 0]
    norm_num
    omega
  · rw [if_neg h12]
    have hf : Int.fdiv w.endMonth 12 = 0 := by
      rw [Int.fdiv_eq_ediv _ (by norm_num)]
      omega
    have hm : Int.emod w.endMonth 12 = w.endMonth := by
      show w.endMonth % 12 = w.endMonth
      omega
    rw [hf, hm, add_zero, daysFromCivil_sub_one w.endYear (w.endMonth + 1) 0]
    omega

/-- A row survives the filter exactly when its trimmed date cell parses to
a day inside the inclusive window. -/
theorem rowKept_iff (di : Nat) (w : DateRange) (row : List String) :
    rowKept di w row = true ↔
      ∃ d, parseAnchorDay (strTrim (row.getD di "")) = some d ∧
        windowLo w ≤ d ∧ d ≤ windowHi w := by
  unfold rowKept
  by_cases he : strTrim (row.getD di "") = ""
  · rw [if_pos he, he]
    rw [show parseAnchorDay "" = none from by decide]
    simp
  · rw [if_neg he]
    cases hp : parseAnchorDay (strTrim (row.getD di "")) with
    | none => simp
    | some day => simp

/-- Appending a row that the filter drops changes nothing in the outcome. -/
theorem perform_append_excluded (g : List (List String)) (row : List String) (w : DateRange)
    (t : Frac) (hg : 2 ≤ g.length) (hex : rowExcluded g w row = true) :
    performCustomerAnalysis (g ++ [row]) w t = performCustomerAnalysis g w t := by
  obtain ⟨a, g', rfl⟩ : ∃ a g', g = a :: g' := by
    cases g with
    | nil => simp at hg
    | cons a g' => exact ⟨a, g', rfl⟩
  have h1 : ¬((a :: g').length < 2) := by
    simp only [List.length_cons] at hg ⊢
    omega
  have h2 : ¬(((a :: g') ++ [row]).length < 2) := by
    simp only [List.cons_append, List.length_cons, List.length_append]
    omega
  unfold performCustomerAnalysis
  rw [if_neg h1, if_neg h2]
  simp only [List.cons_append, List.headD_cons, List.drop_succ_cons, List.drop_zero]
  unfold rowExcluded at hex
  simp only [List.headD_cons] at hex
  cases hdi : dateIdx a with
  | none => rfl
  | some di =>
    rw [hdi] at hex
    simp only [Bool.not_eq_eq_eq_not, Bool.not_true] at hex
    have hfe : List.filter (rowKept di w) [row] = [] := by
      simp [hex]
    change
      (if (List.filter (rowKept di w) (g' ++ [row])).isEmpty = true then
        AnalysisOutcome.noResult
      else
        AnalysisOutcome.result
          (assembleResult (List.map (rowToCustomer a) (List.filter (rowKept di w) (g' ++ [row])))
            t)) =
      if (List.filter (rowKept di w) g').isEmpty = true then AnalysisOutcome.noResult
      else
        AnalysisOutcome.result
          (assembleResult (List.map (rowToCustomer a) (List.filter (rowKept di w) g')) t)
    rw [List.filter_append, hfe, List.append_nil]

/-- C4: the window bounds are the first day of the start month and the last
day of the end month; a row survives the filter exactly when its parsed
anchor day lies in that inclusive interval; and appending a row that fails
the parse or the window leaves the entire outcome — all five aggregates and
every global total — unchanged. -/
theorem claim_C4 (g : List (List String)) (row : List String) (w : DateRange) (t : Frac)
    (hg : 2 ≤ g.length) (hsy : 100 ≤ w.startYear) (hey : 100 ≤ w.endYear)
    (hsm1 : 1 ≤ w.startMonth) (hsm2 : w.startMonth ≤ 12)
    (hem1 : 1 ≤ w.endMonth) (hem2 : w.endMonth ≤ 12)
    (hex : rowExcluded g w row = true) :
    windowLo w = daysFromCivil w.startYear w.startMonth 1 ∧
    windowHi w = lastDayOfMonth w.endYear w.endMonth ∧
    (∀ di r2, rowKept di w r2 = true ↔
      ∃ d, parseAnchorDay (strTrim (r2.getD di "")) = some d ∧
        windowLo w ≤ d ∧ d ≤ windowHi w) ∧
    performCustomerAnalysis (g ++ [row]) w t = performCustomerAnalysis g w t :=
  ⟨windowLo_eq w hsy hsm1 hsm2, windowHi_eq w hey hem1 hem2,
   fun di r2 => rowKept_iff di w r2, perform_append_excluded g row w t hg hex⟩

/-- C4 witness: appending scenario B's out-of-window row to scenario A's
grid changes nothing. -/
theorem claim_C4_witness :
    performCustomerAnalysis (gridA ++ [["2023/03/15", "是", "15000", "50", "20", "王小明"]])
        win2024 40 =
      performCustomerAnalysis gridA win2024 40 :=
  (claim_C4 gridA ["2023/03/15", "是", "15000", "50", "20", "王小明"] win2024 40
    (by decide) (by decide) (by decide) (by decide) (by decide) (by decide) (by decide)
    (by decide)).2.2.2
